import Mathlib

/-!
# Verification of the visual similarity search engine

Shallow embedding of the core of the `attire-ai-explorer` repository:
the weighted-cosine similarity scorer (`calculateCosineSimilarity`), the
feature cache (`getCachedFeatures` / `saveCachedFeatures` and their use in
`getImageFeatures`), the batch matcher (`calculateBatchSimilarity`) and the
tag-overlap re-ranker (`calculateTagSimilarity`).  Floating-point numbers
are modelled as real numbers; timestamps as integers; tag values as strings.
-/

namespace AttireSimilarity

open Real

/-- Per-dimension feature weight.  Mirrors the `featureWeights` array built in
`calculateCosineSimilarity`: 30 entries of 1.2 (RGB histograms), 18 of 2.0
(hue), 10 of 1.8 (saturation), 10 of 1.5 (value), 36 of 2.2 (blocks), the five
global-statistic weights `[1.8, 2.0, 1.5, 1.5, 1.5]`, the five edge weights
`[2.2, 1.8, 1.8, 1.8, 1.8]`, and the `while` loop that pads any further index
with 1.0. -/
def featureWeight (i : ℕ) : ℝ :=
  if i < 30 then 1.2
  else if i < 48 then 2.0
  else if i < 58 then 1.8
  else if i < 68 then 1.5
  else if i < 104 then 2.2
  else if i = 104 then 1.8
  else if i = 105 then 2.0
  else if i < 109 then 1.5
  else if i = 109 then 2.2
  else if i < 114 then 1.8
  else 1.0

/-- Entry `i` of a feature vector multiplied by its weight
(`weightedF1` / `weightedF2` in the source loop). -/
noncomputable def wVal (f : List ℝ) (i : ℕ) : ℝ := f.getD i 0 * featureWeight i

/-- The `weightedDotProduct` accumulated by the loop `for i in [0, len)` where
`len = features1.length` (the padded weight array is never shorter). -/
noncomputable def weightedDotProduct (f1 f2 : List ℝ) : ℝ :=
  ∑ i ∈ Finset.range f1.length, wVal f1 i * wVal f2 i

/-- Source `weightedNorm1` / `weightedNorm2`: sum of squared weighted entries over
the same index range `[0, len)`. -/
noncomputable def weightedNorm (f : List ℝ) (len : ℕ) : ℝ :=
  ∑ i ∈ Finset.range len, wVal f i * wVal f i

/-- Source `totalDifference`: weighted sum of absolute per-dimension differences. -/
noncomputable def totalDifference (f1 f2 : List ℝ) : ℝ :=
  ∑ i ∈ Finset.range f1.length, |f1.getD i 0 - f2.getD i 0| * featureWeight i

/-- Source `maxDifference`: running maximum of the absolute per-dimension
differences, starting at 0. -/
noncomputable def maxDifference (f1 f2 : List ℝ) : ℝ :=
  (List.range f1.length).foldl (fun m i => max m |f1.getD i 0 - f2.getD i 0|) 0

/-- Source `avgDifference = totalDifference / len`. -/
noncomputable def avgDifference (f1 f2 : List ℝ) : ℝ :=
  totalDifference f1 f2 / (f1.length : ℝ)

/-- Contribution of spatial block `i` (0 ≤ i < 9) to `blockConsistency`:
guarded by `blockIdx + 3 < len`, combining the Euclidean colour distance and
the texture distance with weights 0.7/0.3 and mapping through
`exp(-combinedDist * 5)`.  `blockStart = 30 + 38 = 68`. -/
noncomputable def blockTerm (f1 f2 : List ℝ) (i : ℕ) : ℝ :=
  let blockIdx := 68 + i * 4
  if blockIdx + 3 < f1.length then
    let colorDist := Real.sqrt
      ((f1.getD blockIdx 0 - f2.getD blockIdx 0) * (f1.getD blockIdx 0 - f2.getD blockIdx 0) +
       (f1.getD (blockIdx + 1) 0 - f2.getD (blockIdx + 1) 0) *
         (f1.getD (blockIdx + 1) 0 - f2.getD (blockIdx + 1) 0) +
       (f1.getD (blockIdx + 2) 0 - f2.getD (blockIdx + 2) 0) *
         (f1.getD (blockIdx + 2) 0 - f2.getD (blockIdx + 2) 0))
    let textureDist := |f1.getD (blockIdx + 3) 0 - f2.getD (blockIdx + 3) 0|
    Real.exp (-(colorDist * 0.7 + textureDist * 0.3) * 5)
  else 0

/-- Source `blockConsistency`: the nine block contributions averaged over 9. -/
noncomputable def blockConsistency (f1 f2 : List ℝ) : ℝ :=
  (∑ i ∈ Finset.range 9, blockTerm f1 f2 i) / 9

/-- Source `hueConsistency`: `exp(-|h1 - h2| * 8)` over the 18 hue bins starting at
index `hueStart = 30`, averaged over 18. -/
noncomputable def hueConsistency (f1 f2 : List ℝ) : ℝ :=
  (∑ i ∈ Finset.range 18, Real.exp (-|f1.getD (30 + i) 0 - f2.getD (30 + i) 0| * 8)) / 18

/-- Source `cosineSim = weightedDotProduct / (sqrt(weightedNorm1) * sqrt(weightedNorm2))`. -/
noncomputable def cosineSim (f1 f2 : List ℝ) : ℝ :=
  weightedDotProduct f1 f2 /
    (Real.sqrt (weightedNorm f1 f1.length) * Real.sqrt (weightedNorm f2 f1.length))

/-- Step 5 of the scorer: the combined raw similarity
`cosine*0.4 + blockConsistency*0.25 + hueConsistency*0.25 + (1-avgDifference)*0.1`. -/
noncomputable def rawSimilarity (f1 f2 : List ℝ) : ℝ :=
  cosineSim f1 f2 * 0.4 + blockConsistency f1 f2 * 0.25 +
    hueConsistency f1 f2 * 0.25 + (1 - avgDifference f1 f2) * 0.1

/-- Step 7: the stepped maximum-difference penalty. -/
noncomputable def maxDiffPenalty (md x : ℝ) : ℝ :=
  if md > 0.8 then x * 0.3
  else if md > 0.6 then x * 0.5
  else if md > 0.4 then x * 0.7
  else if md > 0.3 then x * 0.85
  else x

/-- Step 8: the low-similarity suppression. -/
noncomputable def lowSimAdjust (x : ℝ) : ℝ :=
  if x < 0.2 then x * 0.5
  else if x < 0.4 then x * 0.8
  else x

/-- The full similarity scorer `calculateCosineSimilarity`: dimension check
returning 0, zero-norm check returning 0, then raw similarity, `pow 0.7`
compression, stepped max-difference penalty, low-similarity suppression, the
global `* 0.9` damping and the final clamp `max(0, min(1, ·))`. -/
noncomputable def calculateCosineSimilarity (f1 f2 : List ℝ) : ℝ :=
  if f1.length ≠ f2.length then 0
  else if weightedNorm f1 f1.length = 0 ∨ weightedNorm f2 f1.length = 0 then 0
  else
    max 0 (min 1
      (lowSimAdjust (maxDiffPenalty (maxDifference f1 f2)
        (Real.rpow (rawSimilarity f1 f2) 0.7)) * 0.9))

end AttireSimilarity

namespace AttireSimilarity

/-! ## Helper lemmas about the scorer -/

lemma one_le_featureWeight (i : ℕ) : 1 ≤ featureWeight i := by
  unfold featureWeight
  split_ifs <;> norm_num

lemma featureWeight_pos (i : ℕ) : 0 < featureWeight i :=
  lt_of_lt_of_le one_pos (one_le_featureWeight i)

lemma weightedDotProduct_self (f : List ℝ) :
    weightedDotProduct f f = weightedNorm f f.length := rfl

lemma weightedNorm_nonneg (f : List ℝ) (len : ℕ) : 0 ≤ weightedNorm f len :=
  Finset.sum_nonneg fun _ _ => mul_self_nonneg _

lemma totalDifference_self (f : List ℝ) : totalDifference f f = 0 := by
  unfold totalDifference
  simp

lemma maxDifference_self (f : List ℝ) : maxDifference f f = 0 := by
  unfold maxDifference
  have key : ∀ (l : List ℕ) (a : ℝ), 0 ≤ a →
      l.foldl (fun m i => max m |f.getD i 0 - f.getD i 0|) a = a := by
    intro l
    induction l with
    | nil => intro a _; rfl
    | cons x xs ih =>
      intro a ha
      have h0 : |f.getD x 0 - f.getD x 0| = (0 : ℝ) := by simp
      simp only [List.foldl_cons, h0, max_eq_left ha]
      exact ih a ha
  exact key (List.range f.length) 0 le_rfl

lemma avgDifference_self (f : List ℝ) : avgDifference f f = 0 := by
  unfold avgDifference
  rw [totalDifference_self, zero_div]

lemma blockTerm_self (f : List ℝ) (hlen : f.length = 114) (i : ℕ) (hi : i < 9) :
    blockTerm f f i = 1 := by
  unfold blockTerm
  have hguard : 68 + i * 4 + 3 < f.length := by omega
  rw [if_pos hguard]
  simp [Real.exp_zero]

lemma blockConsistency_self (f : List ℝ) (hlen : f.length = 114) :
    blockConsistency f f = 1 := by
  unfold blockConsistency
  rw [Finset.sum_congr rfl fun i hi => blockTerm_self f hlen i (Finset.mem_range.mp hi)]
  norm_num

lemma hueConsistency_self (f : List ℝ) : hueConsistency f f = 1 := by
  unfold hueConsistency
  have : ∀ i ∈ Finset.range 18,
      Real.exp (-|f.getD (30 + i) 0 - f.getD (30 + i) 0| * 8) = 1 := by
    intro i _
    simp [Real.exp_zero]
  rw [Finset.sum_congr rfl this]
  norm_num

lemma cosineSim_self (f : List ℝ) (h : weightedNorm f f.length ≠ 0) :
    cosineSim f f = 1 := by
  unfold cosineSim
  rw [weightedDotProduct_self, Real.mul_self_sqrt (weightedNorm_nonneg f f.length)]
  exact div_self h

lemma rawSimilarity_self (f : List ℝ) (hlen : f.length = 114)
    (h : weightedNorm f f.length ≠ 0) : rawSimilarity f f = 1 := by
  unfold rawSimilarity
  rw [cosineSim_self f h, blockConsistency_self f hlen, hueConsistency_self,
    avgDifference_self]
  norm_num

lemma calculateCosineSimilarity_self (f : List ℝ) (hlen : f.length = 114)
    (h : weightedNorm f f.length ≠ 0) : calculateCosineSimilarity f f = 0.9 := by
  unfold calculateCosineSimilarity
  rw [if_neg (by simp), if_neg (by simp [h]), rawSimilarity_self f hlen h,
    maxDifference_self]
  rw [show Real.rpow 1 0.7 = 1 from Real.one_rpow 0.7]
  unfold maxDiffPenalty lowSimAdjust
  norm_num

/-- Solid-colour style test vector: 114 entries, all equal to 1. -/
def vSolid : List ℝ := List.replicate 114 1

lemma getD_replicate_lt (a d : ℝ) : ∀ (n i : ℕ), i < n →
    (List.replicate n a).getD i d = a
  | n + 1, 0, _ => rfl
  | n + 1, i + 1, h => by
    simpa [List.replicate_succ] using
      getD_replicate_lt a d n i (Nat.lt_of_succ_lt_succ h)

lemma weightedNorm_vSolid_pos : 0 < weightedNorm vSolid 114 := by
  unfold weightedNorm
  apply Finset.sum_pos
  · intro i hi
    unfold wVal vSolid
    rw [getD_replicate_lt 1 0 114 i (Finset.mem_range.mp hi), one_mul]
    exact mul_pos (featureWeight_pos i) (featureWeight_pos i)
  · exact ⟨0, Finset.mem_range.mpr (by norm_num)⟩

lemma vSolid_length : vSolid.length = 114 := by
  simp [vSolid]

/-! ## C1: self-similarity -/

/-- C1 counterexample: on the concrete 114-dimensional all-ones vector (the
feature vector of a synthetic solid-colour image has this shape), the
self-similarity is 0.9, not 1.0 — the claimed identity `score(v,v) = 1.0`
fails by the global damping factor. -/
theorem C1_counterexample :
    calculateCosineSimilarity vSolid vSolid = 0.9 ∧
    calculateCosineSimilarity vSolid vSolid ≠ 1 := by
  have h := calculateCosineSimilarity_self vSolid vSolid_length
    (by rw [vSolid_length]; exact ne_of_gt weightedNorm_vSolid_pos)
  refine ⟨h, ?_⟩
  rw [h]
  norm_num

/-- C1 (amended): for every 114-dimensional feature vector with nonzero
weighted norm (every extractor output satisfies both), the self-similarity
`score(v, v)` equals exactly 0.9 — the maximal attainable value — rather
than 1.0. -/
theorem C1_self_similarity (v : List ℝ) (hlen : v.length = 114)
    (h : weightedNorm v v.length ≠ 0) : calculateCosineSimilarity v v = 0.9 :=
  calculateCosineSimilarity_self v hlen h

/-- Witness for C1: the amended theorem applied to the all-ones vector. -/
theorem C1_witness : calculateCosineSimilarity vSolid vSolid = 0.9 :=
  C1_self_similarity vSolid vSolid_length
    (by rw [vSolid_length]; exact ne_of_gt weightedNorm_vSolid_pos)

/-! ## C2: the global damping caps every score at 0.9 -/

lemma weightedNorm_pos_of_ne (f : List ℝ) (len : ℕ) (h : weightedNorm f len ≠ 0) :
    0 < weightedNorm f len :=
  (weightedNorm_nonneg f len).lt_of_ne (Ne.symm h)

lemma cosineSim_le_one (f1 f2 : List ℝ) (h1 : weightedNorm f1 f1.length ≠ 0)
    (h2 : weightedNorm f2 f1.length ≠ 0) : cosineSim f1 f2 ≤ 1 := by
  unfold cosineSim
  have hp1 := weightedNorm_pos_of_ne f1 f1.length h1
  have hp2 := weightedNorm_pos_of_ne f2 f1.length h2
  have hs : 0 < Real.sqrt (weightedNorm f1 f1.length) *
      Real.sqrt (weightedNorm f2 f1.length) :=
    mul_pos (Real.sqrt_pos.mpr hp1) (Real.sqrt_pos.mpr hp2)
  rw [div_le_one hs]
  have hcs := Real.sum_mul_le_sqrt_mul_sqrt (Finset.range f1.length)
    (fun i => wVal f1 i) (fun i => wVal f2 i)
  have e1 : ∑ i ∈ Finset.range f1.length, wVal f1 i ^ 2 =
      weightedNorm f1 f1.length :=
    Finset.sum_congr rfl fun i _ => sq (wVal f1 i)
  have e2 : ∑ i ∈ Finset.range f1.length, wVal f2 i ^ 2 =
      weightedNorm f2 f1.length :=
    Finset.sum_congr rfl fun i _ => sq (wVal f2 i)
  calc weightedDotProduct f1 f2 ≤ _ := hcs
    _ = _ := by rw [e1, e2]

lemma blockTerm_le_one (f1 f2 : List ℝ) (i : ℕ) : blockTerm f1 f2 i ≤ 1 := by
  unfold blockTerm
  dsimp only
  split_ifs with h
  · rw [Real.exp_le_one_iff]
    have hc : 0 ≤ Real.sqrt
        ((f1.getD (68 + i * 4) 0 - f2.getD (68 + i * 4) 0) *
           (f1.getD (68 + i * 4) 0 - f2.getD (68 + i * 4) 0) +
         (f1.getD (68 + i * 4 + 1) 0 - f2.getD (68 + i * 4 + 1) 0) *
           (f1.getD (68 + i * 4 + 1) 0 - f2.getD (68 + i * 4 + 1) 0) +
         (f1.getD (68 + i * 4 + 2) 0 - f2.getD (68 + i * 4 + 2) 0) *
           (f1.getD (68 + i * 4 + 2) 0 - f2.getD (68 + i * 4 + 2) 0)) :=
      Real.sqrt_nonneg _
    have ht : (0 : ℝ) ≤ |f1.getD (68 + i * 4 + 3) 0 - f2.getD (68 + i * 4 + 3) 0| :=
      abs_nonneg _
    nlinarith
  · norm_num

lemma blockTerm_nonneg (f1 f2 : List ℝ) (i : ℕ) : 0 ≤ blockTerm f1 f2 i := by
  unfold blockTerm
  dsimp only
  split_ifs with h
  · exact (Real.exp_pos _).le
  · exact le_rfl

lemma blockConsistency_le_one (f1 f2 : List ℝ) : blockConsistency f1 f2 ≤ 1 := by
  unfold blockConsistency
  rw [div_le_one (by norm_num : (0:ℝ) < 9)]
  calc (∑ i ∈ Finset.range 9, blockTerm f1 f2 i)
      ≤ ∑ _i ∈ Finset.range 9, (1 : ℝ) :=
        Finset.sum_le_sum fun i _ => blockTerm_le_one f1 f2 i
    _ = 9 := by simp

lemma hueConsistency_le_one (f1 f2 : List ℝ) : hueConsistency f1 f2 ≤ 1 := by
  unfold hueConsistency
  rw [div_le_one (by norm_num : (0:ℝ) < 18)]
  calc (∑ i ∈ Finset.range 18,
        Real.exp (-|f1.getD (30 + i) 0 - f2.getD (30 + i) 0| * 8))
      ≤ ∑ _i ∈ Finset.range 18, (1 : ℝ) := by
        apply Finset.sum_le_sum
        intro i _
        rw [Real.exp_le_one_iff]
        have := abs_nonneg (f1.getD (30 + i) 0 - f2.getD (30 + i) 0)
        nlinarith
    _ = 18 := by simp

lemma avgDifference_nonneg (f1 f2 : List ℝ) : 0 ≤ avgDifference f1 f2 := by
  unfold avgDifference totalDifference
  apply div_nonneg _ (Nat.cast_nonneg _)
  exact Finset.sum_nonneg fun i _ =>
    mul_nonneg (abs_nonneg _) (featureWeight_pos i).le

lemma rawSimilarity_le_one (f1 f2 : List ℝ) (h1 : weightedNorm f1 f1.length ≠ 0)
    (h2 : weightedNorm f2 f1.length ≠ 0) : rawSimilarity f1 f2 ≤ 1 := by
  unfold rawSimilarity
  have hc := cosineSim_le_one f1 f2 h1 h2
  have hb := blockConsistency_le_one f1 f2
  have hh := hueConsistency_le_one f1 f2
  have ha := avgDifference_nonneg f1 f2
  linarith

lemma maxDiffPenalty_mem (md x : ℝ) (h0 : 0 ≤ x) (h1 : x ≤ 1) :
    0 ≤ maxDiffPenalty md x ∧ maxDiffPenalty md x ≤ 1 := by
  unfold maxDiffPenalty
  split_ifs <;> constructor <;> nlinarith

lemma lowSimAdjust_mem (x : ℝ) (h0 : 0 ≤ x) (h1 : x ≤ 1) :
    0 ≤ lowSimAdjust x ∧ lowSimAdjust x ≤ 1 := by
  unfold lowSimAdjust
  split_ifs <;> constructor <;> nlinarith

/-- C2: whenever the two vectors have equal length, entries in `[0,1]`, and
the raw combined similarity (before the `pow 0.7` compression) is
nonnegative, the final score is at most 0.9: the global damping factor makes
1.0 unattainable, so a similarity threshold above 0.9 filters out
everything. -/
theorem C2_global_damping_cap (f1 f2 : List ℝ) (hlen : f1.length = f2.length)
    (_hf1 : ∀ x ∈ f1, 0 ≤ x ∧ x ≤ 1) (_hf2 : ∀ x ∈ f2, 0 ≤ x ∧ x ≤ 1)
    (hraw : 0 ≤ rawSimilarity f1 f2) :
    calculateCosineSimilarity f1 f2 ≤ 0.9 := by
  unfold calculateCosineSimilarity
  rw [if_neg (by simp [hlen])]
  by_cases hz : weightedNorm f1 f1.length = 0 ∨ weightedNorm f2 f1.length = 0
  · rw [if_pos hz]
    norm_num
  · rw [if_neg hz]
    push_neg at hz
    have hr1 : rawSimilarity f1 f2 ≤ 1 := rawSimilarity_le_one f1 f2 hz.1 hz.2
    have hp0 : 0 ≤ Real.rpow (rawSimilarity f1 f2) 0.7 :=
      Real.rpow_nonneg hraw 0.7
    have hp1 : Real.rpow (rawSimilarity f1 f2) 0.7 ≤ 1 :=
      Real.rpow_le_one hraw hr1 (by norm_num)
    obtain ⟨hm0, hm1⟩ := maxDiffPenalty_mem (maxDifference f1 f2) _ hp0 hp1
    obtain ⟨hl0, hl1⟩ := lowSimAdjust_mem _ hm0 hm1
    have : min 1 (lowSimAdjust (maxDiffPenalty (maxDifference f1 f2)
        (Real.rpow (rawSimilarity f1 f2) 0.7)) * 0.9) ≤ 0.9 :=
      (min_le_right _ _).trans (by nlinarith)
    exact max_le (by norm_num) this

/-- Witness for C2: the cap holds on the concrete all-ones pair, whose raw
similarity is 1. -/
theorem C2_witness : calculateCosineSimilarity vSolid vSolid ≤ 0.9 :=
  C2_global_damping_cap vSolid vSolid rfl
    (fun x hx => by rw [List.eq_of_mem_replicate hx]; norm_num)
    (fun x hx => by rw [List.eq_of_mem_replicate hx]; norm_num)
    (by
      rw [rawSimilarity_self vSolid vSolid_length
        (by rw [vSolid_length]; exact ne_of_gt weightedNorm_vSolid_pos)]
      norm_num)

/-! ## C5: symmetry of the scorer -/

lemma mul_self_sub_comm (a b : ℝ) : (a - b) * (a - b) = (b - a) * (b - a) := by
  ring

lemma weightedDotProduct_comm (f1 f2 : List ℝ) (h : f1.length = f2.length) :
    weightedDotProduct f1 f2 = weightedDotProduct f2 f1 := by
  unfold weightedDotProduct
  rw [h]
  exact Finset.sum_congr rfl fun i _ => mul_comm _ _

lemma totalDifference_comm (f1 f2 : List ℝ) (h : f1.length = f2.length) :
    totalDifference f1 f2 = totalDifference f2 f1 := by
  unfold totalDifference
  rw [h]
  exact Finset.sum_congr rfl fun i _ => by rw [abs_sub_comm]

lemma avgDifference_comm (f1 f2 : List ℝ) (h : f1.length = f2.length) :
    avgDifference f1 f2 = avgDifference f2 f1 := by
  unfold avgDifference
  rw [totalDifference_comm f1 f2 h, h]

lemma maxDifference_comm (f1 f2 : List ℝ) (h : f1.length = f2.length) :
    maxDifference f1 f2 = maxDifference f2 f1 := by
  unfold maxDifference
  rw [h]
  congr 1
  funext m i
  rw [abs_sub_comm]

lemma blockTerm_comm (f1 f2 : List ℝ) (h : f1.length = f2.length) (i : ℕ) :
    blockTerm f1 f2 i = blockTerm f2 f1 i := by
  unfold blockTerm
  dsimp only
  rw [h]
  split_ifs with hg
  · simp only [mul_self_sub_comm, abs_sub_comm]
  · rfl

lemma blockConsistency_comm (f1 f2 : List ℝ) (h : f1.length = f2.length) :
    blockConsistency f1 f2 = blockConsistency f2 f1 := by
  unfold blockConsistency
  congr 1
  exact Finset.sum_congr rfl fun i _ => blockTerm_comm f1 f2 h i

lemma hueConsistency_comm (f1 f2 : List ℝ) :
    hueConsistency f1 f2 = hueConsistency f2 f1 := by
  unfold hueConsistency
  congr 1
  exact Finset.sum_congr rfl fun i _ => by rw [abs_sub_comm]

lemma cosineSim_comm (f1 f2 : List ℝ) (h : f1.length = f2.length) :
    cosineSim f1 f2 = cosineSim f2 f1 := by
  unfold cosineSim
  rw [h, weightedDotProduct_comm f1 f2 h, mul_comm]

lemma rawSimilarity_comm (f1 f2 : List ℝ) (h : f1.length = f2.length) :
    rawSimilarity f1 f2 = rawSimilarity f2 f1 := by
  unfold rawSimilarity
  rw [cosineSim_comm f1 f2 h, blockConsistency_comm f1 f2 h,
    hueConsistency_comm f1 f2, avgDifference_comm f1 f2 h]

/-- C5: for every pair of equal-length feature vectors, the score is
symmetric: the weighted cosine term, the difference terms, the block
consistency and the hue consistency are all symmetric in the two
arguments. -/
theorem C5_symmetry (f1 f2 : List ℝ) (h : f1.length = f2.length) :
    calculateCosineSimilarity f1 f2 = calculateCosineSimilarity f2 f1 := by
  unfold calculateCosineSimilarity
  rw [if_neg (show ¬f1.length ≠ f2.length from fun hc => hc h),
    if_neg (show ¬f2.length ≠ f1.length from fun hc => hc h.symm), h,
    maxDifference_comm f1 f2 h, rawSimilarity_comm f1 f2 h]
  by_cases hz : weightedNorm f1 f2.length = 0 ∨ weightedNorm f2 f2.length = 0
  · rw [if_pos hz, if_pos hz.symm]
  · rw [if_neg hz, if_neg (fun hc => hz hc.symm)]

/-- Witness for C5: symmetry on the concrete pair `[0, 1]`, `[1, 0]`. -/
theorem C5_witness :
    calculateCosineSimilarity [0, 1] [1, 0] = calculateCosineSimilarity [1, 0] [0, 1] :=
  C5_symmetry [0, 1] [1, 0] rfl

/-- The unequal-length fallback: mismatched dimensions yield 0 (the function
is total, so it cannot abort a batch loop). -/
theorem C6_dimension_mismatch_returns_zero (f1 f2 : List ℝ)
    (h : f1.length ≠ f2.length) : calculateCosineSimilarity f1 f2 = 0 := by
  simp [calculateCosineSimilarity, h]

/-- Witness: the scorer on the concrete mismatched pair `[1]`, `[]` is 0. -/
theorem C6_witness : calculateCosineSimilarity [1] [] = 0 :=
  C6_dimension_mismatch_returns_zero [1] [] (by simp)

/-! ## Batch matcher

Model of `calculateBatchSimilarity`.  Feature extraction
(`getImageFeatures`, an async image decode plus cache lookup) is abstracted
as an oracle `extract : imageUrl → imageId → Option (List ℝ)`; `none` is a
thrown extraction error.  The per-candidate loop body first calls
`onProgress(index + 1, total)`, then extracts the candidate's features and
scores them; its `try/catch` converts a failed extraction into a similarity-0
result.  The surrounding `try/catch` converts a failure on the query image
itself into the degraded list mapping every candidate to similarity 0, so the
function never propagates an exception; the `Except` result type records
that observable.  The event trace records each `onProgress` call and each
completed extraction and scoring, in execution order. -/

structure TargetImage where
  id : String
  imageUrl : String

structure SimilarityResult where
  id : String
  imageUrl : String
  similarity : ℝ

/-- Observable events of one batch run: an `onProgress(current, total)`
callback, a completed candidate feature extraction, a completed scoring. -/
inductive BatchEvent where
  | progress (current total : ℕ)
  | extracted (id : String)
  | scored (id : String)
deriving DecidableEq, BEq

/-- The `for (let index = 0; ...)` loop over `targetImages`: report progress,
then extract and score inside a `try` whose `catch` pushes a similarity-0
result for that candidate and continues. -/
noncomputable def processTargets (extract : String → String → Option (List ℝ))
    (searchFeatures : List ℝ) (total : ℕ) :
    ℕ → List TargetImage → List SimilarityResult × List BatchEvent
  | _, [] => ([], [])
  | index, t :: rest =>
    let step : SimilarityResult × List BatchEvent :=
      match extract t.imageUrl t.id with
      | some targetFeatures =>
        (⟨t.id, t.imageUrl, calculateCosineSimilarity searchFeatures targetFeatures⟩,
         [BatchEvent.progress (index + 1) total, BatchEvent.extracted t.id,
          BatchEvent.scored t.id])
      | none =>
        (⟨t.id, t.imageUrl, 0⟩, [BatchEvent.progress (index + 1) total])
    let rest' := processTargets extract searchFeatures total (index + 1) rest
    (step.1 :: rest'.1, step.2 ++ rest'.2)

/-- Batch similarity: extract the query's features first; on failure the
outer `catch` returns the degraded list (`similarity: 0` for every
candidate); otherwise run the sequential candidate loop. -/
noncomputable def calculateBatchSimilarity (extract : String → String → Option (List ℝ))
    (searchImageUrl searchImageId : String) (targetImages : List TargetImage) :
    Except String (List SimilarityResult) × List BatchEvent :=
  match extract searchImageUrl searchImageId with
  | none => (Except.ok (targetImages.map fun t => ⟨t.id, t.imageUrl, 0⟩), [])
  | some searchFeatures =>
    let r := processTargets extract searchFeatures targetImages.length 0 targetImages
    (Except.ok r.1, r.2)

/-- Extraction oracle for counterexamples: fails on the query image only. -/
def failingQueryExtractor : String → String → Option (List ℝ) :=
  fun url _ => if url = "query.png" then none else some vSolid

/-- Extraction oracle that succeeds on every image. -/
def okExtractor : String → String → Option (List ℝ) :=
  fun _ _ => some vSolid

/-! ## C3: behaviour when the query image fails to extract -/

/-- C3 counterexample: with an oracle that fails exactly on the query image,
the batch matcher neither aborts nor surfaces the failure — it returns a
successful result that fabricates a similarity-0 entry for the candidate. -/
theorem C3_counterexample :
    (calculateBatchSimilarity failingQueryExtractor "query.png" "search_1"
        [⟨"cand", "cand.png"⟩]).1 = Except.ok [⟨"cand", "cand.png", 0⟩] ∧
    ((calculateBatchSimilarity failingQueryExtractor "query.png" "search_1"
        [⟨"cand", "cand.png"⟩]).1).isOk = true :=
  ⟨rfl, rfl⟩

/-- C3 (amended): if feature extraction of the query image fails, the whole
search is not aborted and no failure surfaces to the caller; the outer catch
returns the degraded result list assigning similarity 0 to every candidate
(and the loop never runs, so no progress is reported). -/
theorem C3_query_failure_degrades (extract : String → String → Option (List ℝ))
    (searchImageUrl searchImageId : String) (targets : List TargetImage)
    (h : extract searchImageUrl searchImageId = none) :
    calculateBatchSimilarity extract searchImageUrl searchImageId targets =
      (Except.ok (targets.map fun t => ⟨t.id, t.imageUrl, 0⟩), []) := by
  unfold calculateBatchSimilarity
  rw [h]

/-- Witness for C3: the amended theorem applied to the failing-query oracle. -/
theorem C3_witness :
    calculateBatchSimilarity failingQueryExtractor "query.png" "search_1"
        [⟨"cand", "cand.png"⟩] =
      (Except.ok [⟨"cand", "cand.png", 0⟩], []) :=
  C3_query_failure_degrades failingQueryExtractor "query.png" "search_1"
    [⟨"cand", "cand.png"⟩] rfl

/-! ## C7: a single candidate failure never aborts the batch -/

lemma processTargets_results (extract : String → String → Option (List ℝ))
    (sf : List ℝ) (total : ℕ) :
    ∀ (index : ℕ) (ts : List TargetImage),
      (processTargets extract sf total index ts).1 = ts.map fun t =>
        match extract t.imageUrl t.id with
        | some tf => ⟨t.id, t.imageUrl, calculateCosineSimilarity sf tf⟩
        | none => ⟨t.id, t.imageUrl, 0⟩
  | _, [] => rfl
  | index, t :: rest => by
    unfold processTargets
    rw [List.map_cons]
    dsimp only
    rw [processTargets_results extract sf total (index + 1) rest]
    cases extract t.imageUrl t.id <;> rfl

/-- C7: if the query's features extract successfully, the batch result is
one entry per candidate, in order: a failed candidate yields similarity 0 and
the loop continues, every successfully extracted candidate is scored against
the query, and the batch always returns normally. -/
theorem C7_candidate_failure_isolated (extract : String → String → Option (List ℝ))
    (searchImageUrl searchImageId : String) (searchFeatures : List ℝ)
    (targets : List TargetImage)
    (h : extract searchImageUrl searchImageId = some searchFeatures) :
    (calculateBatchSimilarity extract searchImageUrl searchImageId targets).1 =
      Except.ok (targets.map fun t =>
        match extract t.imageUrl t.id with
        | some tf => ⟨t.id, t.imageUrl, calculateCosineSimilarity searchFeatures tf⟩
        | none => ⟨t.id, t.imageUrl, 0⟩) := by
  unfold calculateBatchSimilarity
  rw [h]
  dsimp only
  rw [processTargets_results extract searchFeatures targets.length 0 targets]

/-- Oracle for the C7 witness: query and second candidate extract, the first
candidate fails. -/
def oneBadCandidateExtractor : String → String → Option (List ℝ) :=
  fun url _ => if url = "bad.png" then none else some vSolid

/-- Witness for C7: a concrete batch with one failing candidate among two
returns similarity 0 for it and a real score for the other. -/
theorem C7_witness :
    (calculateBatchSimilarity oneBadCandidateExtractor "query.png" "search_1"
        [⟨"bad", "bad.png"⟩, ⟨"good", "good.png"⟩]).1 =
      Except.ok [⟨"bad", "bad.png", 0⟩,
        ⟨"good", "good.png", calculateCosineSimilarity vSolid vSolid⟩] :=
  C7_candidate_failure_isolated oneBadCandidateExtractor "query.png" "search_1"
    vSolid [⟨"bad", "bad.png"⟩, ⟨"good", "good.png"⟩] rfl

/-! ## C4: progress reporting -/

lemma processTargets_events (extract : String → String → Option (List ℝ))
    (sf : List ℝ) (total : ℕ) :
    ∀ (index : ℕ) (ts : List TargetImage),
      (processTargets extract sf total index ts).2 =
        (List.enumFrom index ts).flatMap (fun p =>
          BatchEvent.progress (p.1 + 1) total ::
            match extract p.2.imageUrl p.2.id with
            | some _ => [BatchEvent.extracted p.2.id, BatchEvent.scored p.2.id]
            | none => [])
  | _, [] => rfl
  | index, t :: rest => by
    unfold processTargets
    rw [List.enumFrom_cons, List.flatMap_cons]
    dsimp only
    rw [processTargets_events extract sf total (index + 1) rest]
    cases extract t.imageUrl t.id <;> rfl

/-- C4 counterexample: on a concrete one-candidate batch where every
extraction succeeds, the `onProgress(1, 1)` call happens strictly before the
candidate's extraction and scoring complete (index 0 of the trace versus
index 2), refuting the claim that each progress call occurs after them. -/
theorem C4_counterexample :
    (calculateBatchSimilarity okExtractor "query.png" "search_1"
        [⟨"cand", "cand.png"⟩]).2 =
      [BatchEvent.progress 1 1, BatchEvent.extracted "cand",
        BatchEvent.scored "cand"] ∧
    ((calculateBatchSimilarity okExtractor "query.png" "search_1"
        [⟨"cand", "cand.png"⟩]).2.indexOf (BatchEvent.progress 1 1) <
      (calculateBatchSimilarity okExtractor "query.png" "search_1"
        [⟨"cand", "cand.png"⟩]).2.indexOf (BatchEvent.scored "cand")) := by
  have htr : (calculateBatchSimilarity okExtractor "query.png" "search_1"
      [⟨"cand", "cand.png"⟩]).2 =
      [BatchEvent.progress 1 1, BatchEvent.extracted "cand",
        BatchEvent.scored "cand"] := rfl
  refine ⟨htr, ?_⟩
  rw [htr]
  decide

/-- C4 (amended): when the query extracts successfully, `onProgress` is
called exactly `n` times for `n` candidates, the `i`-th call (1-based) with
arguments `(i, n)` — but each call occurs at the start of handling its
candidate, before that candidate's feature extraction and scoring, not after
them: the trace is a concatenation of per-candidate segments each beginning
with the progress event. -/
theorem C4_progress_trace (extract : String → String → Option (List ℝ))
    (searchImageUrl searchImageId : String) (searchFeatures : List ℝ)
    (targets : List TargetImage)
    (h : extract searchImageUrl searchImageId = some searchFeatures) :
    (calculateBatchSimilarity extract searchImageUrl searchImageId targets).2 =
      (List.enumFrom 0 targets).flatMap (fun p =>
        BatchEvent.progress (p.1 + 1) targets.length ::
          match extract p.2.imageUrl p.2.id with
          | some _ => [BatchEvent.extracted p.2.id, BatchEvent.scored p.2.id]
          | none => []) ∧
    ((calculateBatchSimilarity extract searchImageUrl searchImageId targets).2.filterMap
        (fun e => match e with
          | BatchEvent.progress c tot => some (c, tot)
          | _ => none)) =
      (List.range targets.length).map (fun i => (i + 1, targets.length)) := by
  have hev : (calculateBatchSimilarity extract searchImageUrl searchImageId targets).2 =
      (List.enumFrom 0 targets).flatMap (fun p =>
        BatchEvent.progress (p.1 + 1) targets.length ::
          match extract p.2.imageUrl p.2.id with
          | some _ => [BatchEvent.extracted p.2.id, BatchEvent.scored p.2.id]
          | none => []) := by
    unfold calculateBatchSimilarity
    rw [h]
    dsimp only
    rw [processTargets_events extract searchFeatures targets.length 0 targets]
  refine ⟨hev, ?_⟩
  rw [hev]
  have key : ∀ (index : ℕ) (ts : List TargetImage),
      ((List.enumFrom index ts).flatMap (fun p =>
          BatchEvent.progress (p.1 + 1) targets.length ::
            match extract p.2.imageUrl p.2.id with
            | some _ => [BatchEvent.extracted p.2.id, BatchEvent.scored p.2.id]
            | none => [])).filterMap
          (fun e => match e with
            | BatchEvent.progress c tot => some (c, tot)
            | _ => none) =
        (List.range ts.length).map (fun i => (index + i + 1, targets.length)) := by
    intro index ts
    induction ts generalizing index with
    | nil => rfl
    | cons t rest ih =>
      rw [List.enumFrom_cons, List.flatMap_cons, List.filterMap_append, ih (index + 1)]
      have hseg : ((BatchEvent.progress (index + 1) targets.length ::
          match extract t.imageUrl t.id with
          | some _ => [BatchEvent.extracted t.id, BatchEvent.scored t.id]
          | none => []).filterMap
            (fun e => match e with
              | BatchEvent.progress c tot => some (c, tot)
              | _ => none)) = [(index + 1, targets.length)] := by
        cases extract t.imageUrl t.id <;> rfl
      rw [hseg, List.length_cons, List.range_succ_eq_map, List.map_cons, List.map_map,
        List.singleton_append]
      have hfun : (fun i => (index + 1 + i + 1, targets.length)) =
          ((fun i => (index + i + 1, targets.length)) ∘ Nat.succ) := by
        funext i
        simp only [Function.comp_apply, Prod.mk.injEq]
        exact ⟨by omega, trivial⟩
      rw [hfun]
  have hkey := key 0 targets
  rw [hkey]
  simp

/-- Witness for C4: the amended trace theorem applied to the concrete
one-candidate batch. -/
theorem C4_witness :
    (calculateBatchSimilarity okExtractor "q.png" "search_2"
        [⟨"c1", "c1.png"⟩]).2 =
      (List.enumFrom 0 [(⟨"c1", "c1.png"⟩ : TargetImage)]).flatMap (fun p =>
        BatchEvent.progress (p.1 + 1) 1 ::
          match okExtractor p.2.imageUrl p.2.id with
          | some _ => [BatchEvent.extracted p.2.id, BatchEvent.scored p.2.id]
          | none => []) ∧
    ((calculateBatchSimilarity okExtractor "q.png" "search_2"
        [⟨"c1", "c1.png"⟩]).2.filterMap
        (fun e => match e with
          | BatchEvent.progress c tot => some (c, tot)
          | _ => none)) = (List.range 1).map (fun i => (i + 1, 1)) :=
  C4_progress_trace okExtractor "q.png" "search_2" vSolid [⟨"c1", "c1.png"⟩] rfl

/-! ## Feature cache

Model of the feature cache.  `localStorage` is modelled as the stored entry
list; `Date.now()` as an explicit integer timestamp argument.
`getCachedFeatures` filters out entries older than the 7-day expiry window on
every read; `saveCachedFeatures` truncates to the 100 most recent entries
(by timestamp, descending, via the stable `sort((a, b) => b.timestamp -
a.timestamp)`) when the list exceeds the capacity.  `putFeature` and
`getFeature` are the cache write and read paths of `getImageFeatures`:
a write loads the (pruned) cache, appends the new entry and saves; a read
loads the (pruned) cache and takes the first entry with the wanted id. -/

structure ImageFeature where
  id : String
  imageUrl : String
  features : List ℝ
  timestamp : ℤ

/-- Expiry window `CACHE_EXPIRY_DAYS * 24 * 60 * 60 * 1000` in milliseconds. -/
def CACHE_EXPIRY_MS : ℤ := 7 * 24 * 60 * 60 * 1000

/-- Maximum number of cached entries (`MAX_CACHE_SIZE`). -/
def MAX_CACHE_SIZE : ℕ := 100

/-- Read the stored list, dropping entries with `now - timestamp ≥ expiry`
(the source keeps exactly those with `now - feature.timestamp < expiryTime`). -/
def getCachedFeatures (now : ℤ) (stored : List ImageFeature) : List ImageFeature :=
  stored.filter (fun f => now - f.timestamp < CACHE_EXPIRY_MS)

/-- The `sort((a, b) => b.timestamp - a.timestamp)`: stable sort by creation
timestamp, most recent first. -/
def sortByTimestampDesc (fs : List ImageFeature) : List ImageFeature :=
  fs.mergeSort (fun a b => b.timestamp ≤ a.timestamp)

/-- Save path: when the list exceeds `MAX_CACHE_SIZE`, keep only the first
100 entries of the timestamp-descending sort. -/
def saveCachedFeatures (features : List ImageFeature) : List ImageFeature :=
  if features.length > MAX_CACHE_SIZE then
    (sortByTimestampDesc features).take MAX_CACHE_SIZE
  else features

/-- Cache write as performed by `getImageFeatures` on a miss: load the pruned
cache, append the new entry stamped with the current time, save. -/
def putFeature (now : ℤ) (stored : List ImageFeature) (id url : String)
    (v : List ℝ) : List ImageFeature :=
  saveCachedFeatures (getCachedFeatures now stored ++ [⟨id, url, v, now⟩])

/-- Cache read as performed by `getImageFeatures`: load the pruned cache and
return the features of the first entry with the given id, if any. -/
def getFeature (now : ℤ) (stored : List ImageFeature) (id : String) :
    Option (List ℝ) :=
  ((getCachedFeatures now stored).find? (fun f => f.id == id)).map
    (fun f => f.features)

lemma tsLE_trans : ∀ (a b c : ImageFeature),
    (decide (b.timestamp ≤ a.timestamp)) = true →
    (decide (c.timestamp ≤ b.timestamp)) = true →
    (decide (c.timestamp ≤ a.timestamp)) = true := by
  intro a b c hab hbc
  simp only [decide_eq_true_eq] at *
  omega

lemma tsLE_total : ∀ (a b : ImageFeature),
    ((decide (b.timestamp ≤ a.timestamp)) ||
      (decide (a.timestamp ≤ b.timestamp))) = true := by
  intro a b
  simp only [Bool.or_eq_true, decide_eq_true_eq]
  omega

lemma sortByTimestampDesc_perm (fs : List ImageFeature) :
    (sortByTimestampDesc fs).Perm fs :=
  List.mergeSort_perm fs _

lemma sortByTimestampDesc_pairwise (fs : List ImageFeature) :
    List.Pairwise (fun a b => (decide (b.timestamp ≤ a.timestamp)) = true)
      (sortByTimestampDesc fs) :=
  List.sorted_mergeSort tsLE_trans tsLE_total fs

/-- In a list where only `a` satisfies the predicate, `find?` returns `a` as
soon as `a` is a member. -/
lemma find?_unique_mem {α : Type} (p : α → Bool) (l : List α) (a : α)
    (ha : a ∈ l) (hp : p a = true) (hothers : ∀ y ∈ l, y ≠ a → p y = false) :
    l.find? p = some a := by
  induction l with
  | nil => cases ha
  | cons x xs ih =>
    by_cases hx : x = a
    · subst hx
      simp [List.find?_cons, hp]
    · have hpx : p x = false :=
        hothers x (List.mem_cons_self x xs) hx
      simp only [List.find?_cons, hpx]
      have ha' : a ∈ xs := by
        cases List.mem_cons.mp ha with
        | inl h => exact absurd h.symm hx
        | inr h => exact h
      exact ih ha' (fun y hy hne => hothers y (List.mem_cons_of_mem x hy) hne)

/-- If some member strictly dominates the timestamps of all other members,
the descending sort puts it at the head. -/
lemma sortByTimestampDesc_head (L : List ImageFeature) (a : ImageFeature)
    (hmem : a ∈ L) (hmax : ∀ y ∈ L, y ≠ a → y.timestamp < a.timestamp) :
    ∃ rest, sortByTimestampDesc L = a :: rest := by
  have hperm := sortByTimestampDesc_perm L
  have hpw := sortByTimestampDesc_pairwise L
  cases hs : sortByTimestampDesc L with
  | nil =>
    exfalso
    have : a ∈ sortByTimestampDesc L := hperm.mem_iff.mpr hmem
    rw [hs] at this
    cases this
  | cons x rest =>
    by_cases hx : x = a
    · exact ⟨rest, by rw [hx]⟩
    · exfalso
      have hxL : x ∈ L := hperm.mem_iff.mp (hs ▸ List.mem_cons_self x rest)
      have hxlt : x.timestamp < a.timestamp := hmax x hxL hx
      have hasorted : a ∈ x :: rest := hs ▸ hperm.mem_iff.mpr hmem
      have harest : a ∈ rest := by
        cases List.mem_cons.mp hasorted with
        | inl h => exact absurd h.symm hx
        | inr h => exact h
      have hrel := (List.pairwise_cons.mp (hs ▸ hpw)).1 a harest
      simp only [decide_eq_true_eq] at hrel
      omega

/-! ## C8: cache round-trip and lazy 7-day expiry -/

/-- C8: writing `(id, url, v)` at time `t` into a store whose entries are
all strictly older than `t` and none of which uses `id`, an immediate read
of `id` returns exactly `v`; and any read at a time `t'` with
`t' ≥ t + 7 days` — the entry's age has reached the freshness window —
reports it absent, because expiry is applied by filtering on every read. -/
theorem C8_cache_roundtrip_and_expiry (stored : List ImageFeature)
    (id url : String) (v : List ℝ) (t t' : ℤ)
    (hpast : ∀ f ∈ stored, f.timestamp < t)
    (hid : ∀ f ∈ stored, f.id ≠ id) :
    getFeature t (putFeature t stored id url v) id = some v ∧
    (t + CACHE_EXPIRY_MS ≤ t' →
      getFeature t' (putFeature t stored id url v) id = none) := by
  set new : ImageFeature := ⟨id, url, v, t⟩ with hnew
  set fresh := getCachedFeatures t stored with hfresh
  have hfresh_sub : ∀ f ∈ fresh, f ∈ stored := fun f hf => List.mem_of_mem_filter hf
  have hfresh_id : ∀ f ∈ fresh, f.id ≠ id := fun f hf => hid f (hfresh_sub f hf)
  have hfresh_past : ∀ f ∈ fresh, f.timestamp < t :=
    fun f hf => hpast f (hfresh_sub f hf)
  have hL_ts : ∀ y ∈ fresh ++ [new], y.timestamp ≤ t := by
    intro y hy
    cases List.mem_append.mp hy with
    | inl h => exact (hfresh_past y h).le
    | inr h =>
      have : y = new := List.mem_singleton.mp h
      rw [this]
  have hL_other : ∀ y ∈ fresh ++ [new], y ≠ new → y.timestamp < new.timestamp := by
    intro y hy hne
    cases List.mem_append.mp hy with
    | inl h => exact hfresh_past y h
    | inr h => exact absurd (List.mem_singleton.mp h) hne
  have hpnew : (t - new.timestamp < CACHE_EXPIRY_MS) := by
    rw [hnew]
    simp [CACHE_EXPIRY_MS]
  -- the saved list, in both capacity branches, contains `new`, only entries
  -- of the appended list, and nothing else carrying `id`
  have hsaved : new ∈ putFeature t stored id url v ∧
      ∀ y ∈ putFeature t stored id url v, y ∈ fresh ++ [new] := by
    unfold putFeature saveCachedFeatures
    split_ifs with hlen
    · obtain ⟨rest, hrest⟩ := sortByTimestampDesc_head (fresh ++ [new]) new
        (List.mem_append.mpr (Or.inr (List.mem_singleton.mpr rfl))) hL_other
      constructor
      · rw [hrest]
        have h100 : (MAX_CACHE_SIZE : ℕ) = 99 + 1 := rfl
        rw [h100, List.take_succ_cons]
        exact List.mem_cons_self new _
      · intro y hy
        exact (sortByTimestampDesc_perm (fresh ++ [new])).mem_iff.mp
          (List.take_subset _ _ hy)
    · exact ⟨List.mem_append.mpr (Or.inr (List.mem_singleton.mpr rfl)), fun y hy => hy⟩
  obtain ⟨hnew_mem, hsub⟩ := hsaved
  constructor
  · -- immediate read returns v
    unfold getFeature
    have hfind : (getCachedFeatures t (putFeature t stored id url v)).find?
        (fun f => f.id == id) = some new := by
      apply find?_unique_mem
      · unfold getCachedFeatures
        rw [List.mem_filter]
        refine ⟨hnew_mem, ?_⟩
        simpa using hpnew
      · simp [hnew]
      · intro y hy hne
        have hyL : y ∈ fresh ++ [new] := hsub y (List.mem_of_mem_filter hy)
        have hyid : y.id ≠ id := by
          cases List.mem_append.mp hyL with
          | inl h => exact hfresh_id y h
          | inr h => exact absurd (List.mem_singleton.mp h) hne
        exact beq_eq_false_iff_ne.mpr hyid
    rw [hfind]
    rfl
  · -- read after the freshness window: everything is filtered out
    intro ht'
    unfold getFeature
    have hnil : getCachedFeatures t' (putFeature t stored id url v) = [] := by
      unfold getCachedFeatures
      rw [List.filter_eq_nil_iff]
      intro y hy
      have : y.timestamp ≤ t := hL_ts y (hsub y hy)
      simp only [decide_eq_true_eq, not_lt]
      omega
    rw [hnil]
    rfl

/-- Witness for C8: a concrete write into the empty store at time 0, read
back at time 0 and again 8 days later. -/
theorem C8_witness :
    getFeature 0 (putFeature 0 [] "img1" "u" [1]) "img1" = some [1] ∧
    getFeature 700000000 (putFeature 0 [] "img1" "u" [1]) "img1" = none :=
  ⟨(C8_cache_roundtrip_and_expiry [] "img1" "u" [1] 0 700000000
      (by simp) (by simp)).1,
   (C8_cache_roundtrip_and_expiry [] "img1" "u" [1] 0 700000000
      (by simp) (by simp)).2 (by decide)⟩

/-! ## C9: capacity-bounded eviction on write -/

/-- C9: every save stores at most 100 entries; when the written list exceeds
100 entries, the stored list is exactly the first 100 entries of the
timestamp-descending sort — a permutation of the input — and every discarded
entry's creation timestamp is at most that of every retained entry
(insertion recency, not access recency). -/
theorem C9_capacity_eviction (fs : List ImageFeature) :
    (saveCachedFeatures fs).length = min fs.length MAX_CACHE_SIZE ∧
    (MAX_CACHE_SIZE < fs.length →
      saveCachedFeatures fs = (sortByTimestampDesc fs).take MAX_CACHE_SIZE ∧
      (sortByTimestampDesc fs).Perm fs ∧
      ∀ a ∈ saveCachedFeatures fs, ∀ b ∈ (sortByTimestampDesc fs).drop MAX_CACHE_SIZE,
        b.timestamp ≤ a.timestamp) := by
  have hslen : (sortByTimestampDesc fs).length = fs.length :=
    (sortByTimestampDesc_perm fs).length_eq
  constructor
  · unfold saveCachedFeatures
    split_ifs with h
    · rw [List.length_take, hslen]
      omega
    · omega
  · intro h
    have hsave : saveCachedFeatures fs = (sortByTimestampDesc fs).take MAX_CACHE_SIZE := by
      unfold saveCachedFeatures
      rw [if_pos h]
    refine ⟨hsave, sortByTimestampDesc_perm fs, ?_⟩
    intro a ha b hb
    have hpw := sortByTimestampDesc_pairwise fs
    rw [← List.take_append_drop MAX_CACHE_SIZE (sortByTimestampDesc fs)] at hpw
    have hrel := (List.pairwise_append.mp hpw).2.2 a (by rw [← hsave]; exact ha) b hb
    simpa using hrel

/-- A store of 101 distinct entries, timestamps 0 through 100. -/
def cacheOverflow : List ImageFeature :=
  (List.range 101).map (fun i : ℕ => ⟨toString i, "u", [], (i : ℤ)⟩)

/-- Witness for C9: the eviction theorem applied to the concrete 101-entry
store. -/
theorem C9_witness :
    saveCachedFeatures cacheOverflow =
      (sortByTimestampDesc cacheOverflow).take MAX_CACHE_SIZE ∧
    (saveCachedFeatures cacheOverflow).length = min cacheOverflow.length MAX_CACHE_SIZE :=
  ⟨((C9_capacity_eviction cacheOverflow).2
      (by
        have hlen : cacheOverflow.length = 101 := by
          unfold cacheOverflow
          rw [List.length_map, List.length_range]
        rw [hlen]
        decide)).1,
   (C9_capacity_eviction cacheOverflow).1⟩

/-! ## Tag similarity re-ranker

Model of `calculateTagSimilarity`.  A tag set (`ClothingTags`) is an
association list from attribute key to string value; the loop iterates over
`Object.keys(tags1)`, i.e. over `tags1`'s own entries, and looks the key up
in `tags2`. -/

/-- Substring test over character lists: does `sub` start the list? -/
def strLeads : List Char → List Char → Bool
  | [], _ => true
  | _ :: _, [] => false
  | a :: as, b :: bs => a == b && strLeads as bs

/-- Substring test over character lists: does `sub` occur anywhere? -/
def strIncludesAux (sub : List Char) : List Char → Bool
  | [] => strLeads sub []
  | c :: rest => strLeads sub (c :: rest) || strIncludesAux sub rest

/-- JS `a.includes(b)`: `b` occurs as a contiguous substring of `a`. -/
def strIncludes (a b : String) : Bool := strIncludesAux b.toList a.toList

/-- Model of `value.toLowerCase().trim()`: ASCII case folding of every
character, then removal of leading and trailing whitespace, by structural
recursion over the character list (so concrete tag sets evaluate inside the
kernel). -/
def normTag (s : String) : String :=
  String.mk ((((s.data.map Char.toLower).dropWhile
    Char.isWhitespace).reverse.dropWhile Char.isWhitespace).reverse)

/-- The `tagWeights` table: style keys weight 3, colour/collar/sleeve and
garment-category keys weight 2, specific collar and sleeve shapes weight
1.5; the table's weight-1 entries (fabrics and occasions) coincide with the
default `tagWeights[key] || 1` for unlisted keys. -/
def tagWeight (key : String) : ℚ :=
  if key = "样式名称" ∨ key = "样式" then 3
  else if key = "颜色" ∨ key = "领型" ∨ key = "袖型" ∨ key = "连衣裙" ∨
    key = "裙子" ∨ key = "裤子" ∨ key = "外套" ∨ key = "毛衣" then 2
  else if key = "圆领" ∨ key = "V领" ∨ key = "高领" ∨ key = "翻领" ∨
    key = "立领" ∨ key = "一字领" ∨ key = "方领" ∨ key = "心形领" ∨
    key = "长袖" ∨ key = "短袖" ∨ key = "无袖" ∨ key = "七分袖" ∨
    key = "五分袖" ∨ key = "泡泡袖" ∨ key = "喇叭袖" ∨ key = "灯笼袖" then 1.5
  else 1

/-- One iteration of the `tagKeys.forEach` body, acting on the accumulator
`(weightedMatchScore, totalWeight)`: normalise both values with
`toLowerCase().trim()`; when both are non-empty and neither is the sentinel
未识别 ("unrecognized"), add the key's weight to the total weight and add to
the score the full weight on exact equality, `0.6 × weight` on substring
containment either way, or `0.4 × weight` on the colour-family heuristic. -/
def tagStep (tags2 : List (String × String)) (acc : ℚ × ℚ)
    (kv : String × String) : ℚ × ℚ :=
  let value1 := normTag kv.2
  let weight := tagWeight kv.1
  match (tags2.lookup kv.1).map (fun s => normTag s) with
  | none => acc
  | some value2 =>
    if value1 ≠ "" ∧ value2 ≠ "" ∧ value1 ≠ "未识别" ∧ value2 ≠ "未识别" then
      if value1 = value2 then (acc.1 + weight, acc.2 + weight)
      else if strIncludes value1 value2 ∨ strIncludes value2 value1 then
        (acc.1 + weight * 0.6, acc.2 + weight)
      else if (strIncludes value1 "黑" ∧ strIncludes value2 "黑") ∨
        (strIncludes value1 "白" ∧ strIncludes value2 "白") ∨
        (strIncludes value1 "红" ∧ strIncludes value2 "红") ∨
        (strIncludes value1 "蓝" ∧ strIncludes value2 "蓝") then
        (acc.1 + weight * 0.4, acc.2 + weight)
      else (acc.1, acc.2 + weight)
    else acc

/-- `calculateTagSimilarity`: fold the per-key step over `tags1`'s entries
starting from `(0, 0)`, then return `matchScore / totalWeight * 100`, or 0
when `totalWeight` is 0. -/
def calculateTagSimilarity (tags1 tags2 : List (String × String)) : ℚ :=
  let p := tags1.foldl (tagStep tags2) (0, 0)
  if p.2 > 0 then p.1 / p.2 * 100 else 0

/-- Spec-side predicate: a key of `tags1` is populated in both inputs with a
non-empty, non-sentinel value. -/
def comparableKey (tags2 : List (String × String)) (kv : String × String) : Bool :=
  let value1 := normTag kv.2
  match (tags2.lookup kv.1).map (fun s => normTag s) with
  | none => false
  | some value2 =>
    decide (value1 ≠ "" ∧ value2 ≠ "" ∧ value1 ≠ "未识别" ∧ value2 ≠ "未识别")

/-- Spec-side contribution of one key to `totalWeight`. -/
def keyWeightContribution (tags2 : List (String × String))
    (kv : String × String) : ℚ :=
  if comparableKey tags2 kv then tagWeight kv.1 else 0

/-- Spec-side contribution of one key to `weightedMatchScore`. -/
def keyScore (tags2 : List (String × String)) (kv : String × String) : ℚ :=
  let value1 := normTag kv.2
  let weight := tagWeight kv.1
  match (tags2.lookup kv.1).map (fun s => normTag s) with
  | none => 0
  | some value2 =>
    if value1 ≠ "" ∧ value2 ≠ "" ∧ value1 ≠ "未识别" ∧ value2 ≠ "未识别" then
      if value1 = value2 then weight
      else if strIncludes value1 value2 ∨ strIncludes value2 value1 then
        weight * 0.6
      else if (strIncludes value1 "黑" ∧ strIncludes value2 "黑") ∨
        (strIncludes value1 "白" ∧ strIncludes value2 "白") ∨
        (strIncludes value1 "红" ∧ strIncludes value2 "红") ∨
        (strIncludes value1 "蓝" ∧ strIncludes value2 "蓝") then
        weight * 0.4
      else 0
    else 0

/-- Spec-side `weightedMatchScore`. -/
def matchScoreSpec (tags1 tags2 : List (String × String)) : ℚ :=
  (tags1.map (keyScore tags2)).sum

/-- Spec-side `totalWeight`. -/
def totalWeightSpec (tags1 tags2 : List (String × String)) : ℚ :=
  (tags1.map (keyWeightContribution tags2)).sum

lemma one_le_tagWeight (key : String) : 1 ≤ tagWeight key := by
  unfold tagWeight
  split_ifs <;> norm_num

lemma tagStep_eq (tags2 : List (String × String)) (acc : ℚ × ℚ)
    (kv : String × String) :
    tagStep tags2 acc kv =
      (acc.1 + keyScore tags2 kv, acc.2 + keyWeightContribution tags2 kv) := by
  unfold tagStep keyScore keyWeightContribution comparableKey
  cases (tags2.lookup kv.1).map (fun s => normTag s) with
  | none => simp
  | some value2 =>
    dsimp only
    split_ifs <;> simp_all

lemma keyScore_nonneg (tags2 : List (String × String)) (kv : String × String) :
    0 ≤ keyScore tags2 kv := by
  have hw := one_le_tagWeight kv.1
  unfold keyScore
  cases (tags2.lookup kv.1).map (fun s => normTag s) with
  | none => simp
  | some value2 =>
    dsimp only
    split_ifs <;> nlinarith

lemma keyWeightContribution_nonneg (tags2 : List (String × String))
    (kv : String × String) : 0 ≤ keyWeightContribution tags2 kv := by
  have hw := one_le_tagWeight kv.1
  unfold keyWeightContribution
  split_ifs <;> nlinarith

lemma foldl_tagStep (tags2 : List (String × String)) :
    ∀ (l : List (String × String)) (a b : ℚ),
      l.foldl (tagStep tags2) (a, b) =
        (a + matchScoreSpec l tags2, b + totalWeightSpec l tags2)
  | [], a, b => by
    simp [matchScoreSpec, totalWeightSpec]
  | kv :: l, a, b => by
    rw [List.foldl_cons, tagStep_eq, foldl_tagStep tags2 l]
    unfold matchScoreSpec totalWeightSpec
    rw [List.map_cons, List.sum_cons, List.map_cons, List.sum_cons]
    dsimp only
    refine Prod.ext ?_ ?_ <;> dsimp only <;> ring

lemma calculateTagSimilarity_eq (tags1 tags2 : List (String × String)) :
    calculateTagSimilarity tags1 tags2 =
      if totalWeightSpec tags1 tags2 > 0 then
        matchScoreSpec tags1 tags2 / totalWeightSpec tags1 tags2 * 100
      else 0 := by
  unfold calculateTagSimilarity
  rw [foldl_tagStep tags2 tags1 0 0]
  simp

lemma keyScore_of_exact (tags2 : List (String × String)) (kv : String × String)
    (hc : comparableKey tags2 kv = true)
    (hx : (tags2.lookup kv.1).map (fun s => normTag s) =
      some (normTag kv.2)) :
    keyScore tags2 kv = tagWeight kv.1 := by
  unfold comparableKey at hc
  rw [hx] at hc
  simp only [decide_eq_true_eq] at hc
  unfold keyScore
  rw [hx]
  dsimp only
  rw [if_pos hc, if_pos rfl]

lemma keyScore_of_not_comparable (tags2 : List (String × String))
    (kv : String × String) (hc : comparableKey tags2 kv = false) :
    keyScore tags2 kv = 0 := by
  unfold comparableKey at hc
  unfold keyScore
  cases hm : (tags2.lookup kv.1).map (fun s => normTag s) with
  | none => rfl
  | some value2 =>
    rw [hm] at hc
    simp only [decide_eq_false_iff_not] at hc
    dsimp only
    rw [if_neg hc]

/-- C10: the tag similarity equals `(matchScore / totalWeight) × 100`
(0 when `totalWeight = 0`); it is 0 whenever no attribute key is populated
with a non-empty, non-未识别 value in both inputs; and it is 100 whenever at
least one key is populated in both and every key populated in both matches
exactly after case folding and trimming. -/
theorem C10_tag_similarity (tags1 tags2 : List (String × String)) :
    (calculateTagSimilarity tags1 tags2 =
      if totalWeightSpec tags1 tags2 > 0 then
        matchScoreSpec tags1 tags2 / totalWeightSpec tags1 tags2 * 100
      else 0) ∧
    ((∀ kv ∈ tags1, comparableKey tags2 kv = false) →
      calculateTagSimilarity tags1 tags2 = 0) ∧
    ((∃ kv ∈ tags1, comparableKey tags2 kv = true) →
      (∀ kv ∈ tags1, comparableKey tags2 kv = true →
        (tags2.lookup kv.1).map (fun s => normTag s) =
          some (normTag kv.2)) →
      calculateTagSimilarity tags1 tags2 = 100) := by
  refine ⟨calculateTagSimilarity_eq tags1 tags2, ?_, ?_⟩
  · intro hnone
    rw [calculateTagSimilarity_eq]
    have hz : totalWeightSpec tags1 tags2 = 0 := by
      unfold totalWeightSpec
      rw [List.sum_eq_zero]
      intro x hx
      obtain ⟨kv, hkv, rfl⟩ := List.mem_map.mp hx
      unfold keyWeightContribution
      rw [hnone kv hkv]
      rfl
    rw [hz]
    norm_num
  · intro hex hall
    rw [calculateTagSimilarity_eq]
    have heq : matchScoreSpec tags1 tags2 = totalWeightSpec tags1 tags2 := by
      unfold matchScoreSpec totalWeightSpec
      refine congrArg _ (List.map_congr_left ?_)
      intro kv hkv
      by_cases hc : comparableKey tags2 kv = true
      · rw [keyScore_of_exact tags2 kv hc (hall kv hkv hc)]
        unfold keyWeightContribution
        rw [if_pos hc]
      · have hc' : comparableKey tags2 kv = false := by
          revert hc
          cases comparableKey tags2 kv <;> simp
        rw [keyScore_of_not_comparable tags2 kv hc']
        unfold keyWeightContribution
        rw [hc']
        rfl
    obtain ⟨kv0, hkv0, hc0⟩ := hex
    have hpos : 0 < totalWeightSpec tags1 tags2 := by
      have hmem : keyWeightContribution tags2 kv0 ∈
          tags1.map (keyWeightContribution tags2) := List.mem_map_of_mem _ hkv0
      have hle : keyWeightContribution tags2 kv0 ≤ totalWeightSpec tags1 tags2 :=
        List.single_le_sum
          (fun x hx => by
            obtain ⟨kv, hkv, rfl⟩ := List.mem_map.mp hx
            exact keyWeightContribution_nonneg tags2 kv)
          _ hmem
      have hkw : keyWeightContribution tags2 kv0 = tagWeight kv0.1 := by
        unfold keyWeightContribution
        rw [if_pos hc0]
      rw [hkw] at hle
      have := one_le_tagWeight kv0.1
      unfold totalWeightSpec
      unfold totalWeightSpec at hle
      linarith
    rw [if_pos hpos, heq, div_self (ne_of_gt hpos)]
    norm_num

/-- Concrete tag sets for the C10 witness: two identical populated tag
sets. -/
def tagsSample : List (String × String) :=
  [("样式名称", "连衣裙"), ("颜色", "黑色"), ("领", "圆领")]

/-- Witness for C10: identical populated tag sets score exactly 100. -/
theorem C10_witness : calculateTagSimilarity tagsSample tagsSample = 100 :=
  (C10_tag_similarity tagsSample tagsSample).2.2 (by decide) (by decide)

end AttireSimilarity
